import Mathlib

/-!
# ShadeLink permission contract — shallow embedding

Shallow embedding of `src/contracts/permission/src/{lib.rs, signature.rs, types.rs}`
(a NEAR smart contract).  Bytes (`Vec<u8>`, `u8`) are modelled as `List Nat`,
machine integers (`u64`, `u128`) as `Nat` (the only arithmetic that can overflow,
`next_nonce += 1` on a `u64`, is modelled explicitly, see `u64CheckedAdd1`).
The deterministic execution host (block timestamp, caller account, and the
cryptographic primitive library: Ed25519 verification, SHA-256, Keccak-256,
secp256k1 recovery) is out of scope of the repository and is modelled as an
abstract `HostEnv` record of oracles.

Each contract entrypoint is a function `HostEnv → PermissionContract → args →
Except String (PermissionContract × ret)`.  A Rust `assert!`/`panic!` aborts the
NEAR function call and the host then commits none of the call's state writes
(the call "commits atomically or not at all"); this transactional semantics is
embedded by returning `Except.error` with no successor state, and `commit`
below maps a call result to the state the host actually persists.
-/

/-- Host environment: block context plus the cryptographic primitive oracles
(`env::ed25519_verify`, `env::sha256`, `env::keccak256`, `env::ecrecover`),
which the repository treats as external collaborators. -/
structure HostEnv where
  blockTimestamp : Nat
  predecessor : String
  currentAccount : String
  ed25519Verify : List Nat → List Nat → List Nat → Bool
  sha256 : List Nat → List Nat
  keccak256 : List Nat → List Nat
  ecrecover : List Nat → List Nat → Nat → Bool → Option (List Nat)

/-- UTF-8 encoding of one character (used to model `str::as_bytes`). -/
def charUtf8 (c : Char) : List Nat :=
  let n := c.toNat
  if n < 128 then [n]
  else if n < 2048 then [192 + n / 64, 128 + n % 64]
  else if n < 65536 then [224 + n / 4096, 128 + (n / 64) % 64, 128 + n % 64]
  else [240 + n / 262144, 128 + (n / 4096) % 64, 128 + (n / 64) % 64, 128 + n % 64]

/-- UTF-8 bytes of a string: the model of Rust `String::as_bytes`. -/
def utf8Bytes (s : String) : List Nat :=
  s.data.flatMap charUtf8

/-- Fuel-driven digit extraction (structural recursion, so that the kernel
can evaluate it); `natDigits` supplies enough fuel. -/
def natDigitsGo : Nat → Nat → List Char
  | 0, _ => []
  | fuel + 1, n =>
    if n < 10 then [Char.ofNat (48 + n)]
    else natDigitsGo fuel (n / 10) ++ [Char.ofNat (48 + n % 10)]

/-- Decimal digit characters of a natural number, the model of Rust `{}`
formatting of an unsigned integer. -/
def natDigits (n : Nat) : List Char :=
  natDigitsGo (n + 1) n

/-- Decimal rendering of a natural number (Rust `format!` of a `u64`/`u128`). -/
def natDecimal (n : Nat) : String :=
  String.mk (natDigits n)

/-- Value of a hexadecimal digit character, `none` for a non-hex character. -/
def hexDigitVal (c : Char) : Option Nat :=
  if 48 ≤ c.toNat ∧ c.toNat ≤ 57 then some (c.toNat - 48)
  else if 97 ≤ c.toNat ∧ c.toNat ≤ 102 then some (c.toNat - 87)
  else if 65 ≤ c.toNat ∧ c.toNat ≤ 70 then some (c.toNat - 55)
  else none

/-- Model of `hex::decode` on a character list: pairs of hex digits to bytes,
failing on an odd length or a non-hex character. -/
def hexDecodeChars : List Char → Option (List Nat)
  | [] => some []
  | [_] => none
  | c1 :: c2 :: rest =>
    match hexDigitVal c1, hexDigitVal c2, hexDecodeChars rest with
    | some h, some l, some r => some ((16 * h + l) :: r)
    | _, _, _ => none

/-- Lower-case hex digit character for a value below 16. -/
def hexDigitChar (n : Nat) : Char :=
  if n < 10 then Char.ofNat (48 + n) else Char.ofNat (87 + n)

/-- Model of `hex::encode` on a byte list (entries are `u8`, i.e. below 256). -/
def hexEncode (bs : List Nat) : String :=
  String.mk (bs.flatMap (fun b => [hexDigitChar (b % 256 / 16), hexDigitChar (b % 16)]))

/-!
## signature.rs
-/

/-- `verify_ed25519_signature`: length checks (signature 64 bytes, public key
32 bytes) then NEAR's built-in Ed25519 verification.  The `try_into` slice
conversions in the source cannot fail once the lengths are checked, so they do
not appear here. -/
def verify_ed25519_signature (env : HostEnv)
    (public_key message signature : List Nat) : Bool :=
  if signature.length ≠ 64 ∨ public_key.length ≠ 32 then false
  else env.ed25519Verify signature message public_key

/-- `verify_near_signature`: Ed25519 over the SHA-256 hash of the message. -/
def verify_near_signature (env : HostEnv)
    (public_key message signature : List Nat) : Bool :=
  verify_ed25519_signature env public_key (env.sha256 message) signature

/-- `verify_solana_signature`: Ed25519 over the raw message bytes. -/
def verify_solana_signature (env : HostEnv)
    (public_key message signature : List Nat) : Bool :=
  verify_ed25519_signature env public_key message signature

/-- `address.strip_prefix("0x").unwrap_or(address)`: drop a leading `0x`
when present (written on the character list so that it evaluates in the
kernel). -/
def stripHex0x (address : String) : String :=
  match address.data with
  | '0' :: 'x' :: rest => String.mk rest
  | _ => address

/-- `parse_evm_address`: strip an optional `0x`, require 40 hex characters
decoding to exactly 20 bytes. -/
def parse_evm_address (address : String) : Option (List Nat) :=
  let addrStr := stripHex0x address
  if addrStr.length ≠ 40 then none
  else
    match hexDecodeChars addrStr.data with
    | none => none
    | some bytes => if bytes.length ≠ 20 then none else some bytes

/-- `create_eth_signed_message`:
`"\x19Ethereum Signed Message:\n" + decimal length + message`. -/
def create_eth_signed_message (message : List Nat) : List Nat :=
  utf8Bytes ("\x19Ethereum Signed Message:\n" ++ natDecimal message.length) ++ message

/-- `verify_evm_signature`: 65-byte signature r‖s‖v, personal_sign prefix,
Keccak-256 hash, public-key recovery, and comparison of the last 20 bytes of
the Keccak-256 hash of the recovered key against the parsed address.
`signature[64]` is modelled with `getD` (the length is already checked), and
the source's `try_into().unwrap_or([0u8; 20])` on the hash slice is modelled
by the same fallback to 20 zero bytes. -/
def verify_evm_signature (env : HostEnv)
    (address : String) (message signature : List Nat) : Bool :=
  if signature.length ≠ 65 then false
  else
    match parse_evm_address address with
    | none => false
    | some expected_address =>
      let prefixed_message := create_eth_signed_message message
      let message_hash := env.keccak256 prefixed_message
      let v := signature.getD 64 0
      let recovery_id := if v ≥ 27 then v - 27 else v
      match env.ecrecover message_hash signature recovery_id true with
      | none => false
      | some recovered_pubkey =>
        let pubkey_hash := env.keccak256 recovered_pubkey
        let sliced := (pubkey_hash.drop 12).take 20
        let recovered_address := if sliced.length = 20 then sliced else List.replicate 20 0
        recovered_address == expected_address

/-!
## types.rs
-/

/-- Wallet schemes (`WalletType`). -/
inductive WalletType where
  | Near
  | Solana
  | Evm
deriving DecidableEq

/-- `PriceCondition`. -/
inductive PriceCondition where
  | Above
  | Below
deriving DecidableEq

/-- `AllowedOperationType` (the `U128` amounts and trigger prices are `Nat`). -/
inductive AllowedOperationType where
  | Swap (source_asset target_asset : String) (max_amount : Nat)
  | LimitOrder (price_asset quote_asset : String) (trigger_price : Nat)
      (condition : PriceCondition) (source_asset target_asset : String) (max_amount : Nat)
  | StopLoss (price_asset quote_asset : String) (trigger_price : Nat)
      (source_asset target_asset : String) (max_amount : Nat)
  | TakeProfit (price_asset quote_asset : String) (trigger_price : Nat)
      (source_asset target_asset : String) (max_amount : Nat)
deriving DecidableEq

/-- `AllowedOperation`. -/
structure AllowedOperation where
  operation_id : String
  derivation_path : String
  operation_type : AllowedOperationType
  destination_address : String
  destination_chain : String
  slippage_bps : Nat
  expires_at : Option Nat
  executed : Bool
  nonce : Nat
  created_at : Nat
deriving DecidableEq

/-- `AllowedOperationInput`. -/
structure AllowedOperationInput where
  operation_type : AllowedOperationType
  destination_address : String
  destination_chain : String
  slippage_bps : Nat
  expires_at : Option Nat
deriving DecidableEq

/-- `RegisteredWallet`. -/
structure RegisteredWallet where
  wallet_type : WalletType
  public_key : List Nat
  chain_address : String
deriving DecidableEq

/-- `UserPermissions`; the `UnorderedMap` of operations is modelled as an
insertion-ordered association list with unique keys. -/
structure UserPermissions where
  owner_wallets : List RegisteredWallet
  allowed_operations : List (String × AllowedOperation)
  next_nonce : Nat
deriving DecidableEq

/-!
## Persistent-collection models

`LookupMap`/`UnorderedMap` are association lists, `UnorderedSet` a duplicate-free
list; the claims depend on lookup/membership semantics only, not on iteration
order.
-/

/-- Lookup in an association list (`LookupMap::get` / `UnorderedMap::get`). -/
def lookupMap {α : Type} : List (String × α) → String → Option α
  | [], _ => none
  | (k, v) :: rest, k' => if k = k' then some v else lookupMap rest k'

/-- Insert into an association list, replacing the binding if the key is
present (`LookupMap::insert` / `UnorderedMap::insert`). -/
def insertMap {α : Type} : List (String × α) → String → α → List (String × α)
  | [], k, v => [(k, v)]
  | (k', v') :: rest, k, v =>
    if k' = k then (k', v) :: rest else (k', v') :: insertMap rest k v

/-- Remove from an association list (`UnorderedMap::remove`). -/
def removeMap {α : Type} : List (String × α) → String → List (String × α)
  | [], _ => []
  | (k', v') :: rest, k => if k' = k then rest else (k', v') :: removeMap rest k

/-- Insert into a set (`UnorderedSet::insert`). -/
def setInsert (s : List String) (k : String) : List String :=
  if s.contains k then s else s ++ [k]

/-- Remove from a set (`UnorderedSet::remove`). -/
def setRemove (s : List String) (k : String) : List String :=
  s.filter (fun x => x ≠ k)

/-!
## lib.rs — contract state and entrypoints
-/

/-- `PayloadV2`. -/
structure PayloadV2 where
  eddsa : Option String
  ecdsa : Option String
deriving DecidableEq

/-- `SignRequest` dispatched to the ChainSignatureContract. -/
structure SignRequest where
  payload_v2 : PayloadV2
  path : String
  domain_id : Nat
deriving DecidableEq

/-- `PermissionContract` state.  `used_nonces` is a `LookupMap<String, bool>`
whose only stored value is `true`, modelled as the list of present keys. -/
structure PermissionContract where
  owner : String
  permissions : List (String × UserPermissions)
  wallet_to_path : List (String × String)
  tee_relayers : List String
  mpc_contract : String
  active_operations : List String
  used_nonces : List String
deriving DecidableEq

/-- `assert!`: abort the call (`Except.error`) unless the condition holds. -/
def requireB (b : Bool) (msg : String) : Except String Unit :=
  if b then Except.ok () else Except.error msg

/-- `Option::expect`: abort the call when the value is absent. -/
def expectSome {α : Type} (o : Option α) (msg : String) : Except String α :=
  match o with
  | some a => Except.ok a
  | none => Except.error msg

/-- The state the host persists for a call: the successor state of a
successful call, the unchanged pre-state of an aborted call (the host commits
a call's writes all-or-nothing). -/
def commit {α : Type} (s : PermissionContract)
    (r : Except String (PermissionContract × α)) : PermissionContract :=
  match r with
  | Except.ok (s', _) => s'
  | Except.error _ => s

/-- `commit` for the entrypoints whose Rust return type is `()`. -/
def commitU (s : PermissionContract)
    (r : Except String PermissionContract) : PermissionContract :=
  match r with
  | Except.ok s' => s'
  | Except.error _ => s

/-- The string returned by a successful call (empty for an aborted one);
used to name concrete results in witness statements. -/
def okId (r : Except String (PermissionContract × String)) : String :=
  match r with
  | Except.ok (_, i) => i
  | Except.error _ => ""


/-- Modelled from the spec: the crate's build profile (its `Cargo.toml` is not
under `src/`) decides the behavior of the `u64` increment `next_nonce += 1` on
overflow; the spec calls the per-identity nonce "monotonically increasing" and
operation ids "never reused", which matches the NEAR-standard
`overflow-checks = true` profile where an overflowing increment aborts the
call.  Every reachable state has `next_nonce` far below the bound, so the
branch is inert on all concrete runs. -/
def u64CheckedAdd1 (n : Nat) : Except String Nat :=
  if n + 1 < 2 ^ 64 then Except.ok (n + 1) else Except.error "attempt to add with overflow"

/-- `PermissionContract::new`. -/
def PermissionContract.new (owner mpc_contract : String) : PermissionContract :=
  { owner := owner, permissions := [], wallet_to_path := [], tee_relayers := [],
    mpc_contract := mpc_contract, active_operations := [], used_nonces := [] }

/-- `assert_owner`. -/
def assert_owner (env : HostEnv) (s : PermissionContract) : Except String Unit :=
  requireB (env.predecessor == s.owner) "Only owner can call this method"

/-- `assert_tee_relayer`. -/
def assert_tee_relayer (env : HostEnv) (s : PermissionContract) : Except String Unit :=
  requireB (s.tee_relayers.contains env.predecessor)
    "Only authorized TEE relayers can call this method"

/-- `register_tee_relayer` (owner only). -/
def register_tee_relayer (env : HostEnv) (s : PermissionContract)
    (relayer_account : String) : Except String PermissionContract := do
  assert_owner env s
  Except.ok { s with tee_relayers := setInsert s.tee_relayers relayer_account }

/-- `remove_tee_relayer` (owner only). -/
def remove_tee_relayer (env : HostEnv) (s : PermissionContract)
    (relayer_account : String) : Except String PermissionContract := do
  assert_owner env s
  Except.ok { s with tee_relayers := setRemove s.tee_relayers relayer_account }

/-- `update_mpc_contract` (owner only). -/
def update_mpc_contract (env : HostEnv) (s : PermissionContract)
    (mpc_contract : String) : Except String PermissionContract := do
  assert_owner env s
  Except.ok { s with mpc_contract := mpc_contract }

/-- `verify_user_signature`: exhaustive dispatch over the wallet scheme. -/
def verify_user_signature (env : HostEnv) (wallet_type : WalletType)
    (public_key : List Nat) (chain_address : String)
    (message signature : List Nat) : Bool :=
  match wallet_type with
  | WalletType.Near => verify_near_signature env public_key message signature
  | WalletType.Solana => verify_solana_signature env public_key message signature
  | WalletType.Evm => verify_evm_signature env chain_address message signature

/-- `register_wallet`.  The `message` argument is the raw signed bytes; the
canonical registration text is compared byte-for-byte (`utf8Bytes`). -/
def register_wallet (env : HostEnv) (s : PermissionContract)
    (derivation_path : String) (wallet_type : WalletType) (public_key : List Nat)
    (chain_address : String) (signature message : List Nat) (nonce : Nat) :
    Except String PermissionContract := do
  assert_tee_relayer env s
  let nonce_key := chain_address ++ ":" ++ natDecimal nonce
  requireB (!(s.used_nonces.contains nonce_key)) "Nonce already used"
  let s1 := { s with used_nonces := setInsert s.used_nonces nonce_key }
  let is_valid := verify_user_signature env wallet_type public_key chain_address
    message signature
  requireB is_valid "Invalid signature"
  let expected_msg := "Register wallet for derivation path: " ++ derivation_path ++
    " with nonce: " ++ natDecimal nonce
  requireB (message == utf8Bytes expected_msg) "Message does not match expected format"
  let registered_wallet : RegisteredWallet :=
    { wallet_type := wallet_type, public_key := public_key, chain_address := chain_address }
  let s2 :=
    match lookupMap s1.permissions derivation_path with
    | some perms =>
      if perms.owner_wallets.any (fun w => w.chain_address == chain_address) then s1
      else
        let perms1 := { perms with owner_wallets := perms.owner_wallets ++ [registered_wallet] }
        { s1 with permissions := insertMap s1.permissions derivation_path perms1 }
    | none =>
      let perms1 : UserPermissions :=
        { owner_wallets := [registered_wallet], allowed_operations := [], next_nonce := 1 }
      { s1 with permissions := insertMap s1.permissions derivation_path perms1 }
  Except.ok { s2 with wallet_to_path := insertMap s2.wallet_to_path chain_address derivation_path }

/-- `add_allowed_operation`: relayer check, signer lookup, signature check,
operation-id generation from `next_nonce`, insertion into the allowlist and
the active-operation index. -/
def add_allowed_operation (env : HostEnv) (s : PermissionContract)
    (derivation_path : String) (operation : AllowedOperationInput)
    (signature message : List Nat) (signer_address : String) :
    Except String (PermissionContract × String) := do
  assert_tee_relayer env s
  let perms ← expectSome (lookupMap s.permissions derivation_path)
    "No permissions for derivation path"
  let signer_wallet ← expectSome
    (perms.owner_wallets.find? (fun w => w.chain_address == signer_address))
    "Signer not authorized for this derivation path"
  requireB (verify_user_signature env signer_wallet.wallet_type signer_wallet.public_key
    signer_address message signature) "Invalid signature"
  let operation_id := derivation_path ++ "-" ++ natDecimal perms.next_nonce
  let next ← u64CheckedAdd1 perms.next_nonce
  let allowed_op : AllowedOperation :=
    { operation_id := operation_id, derivation_path := derivation_path,
      operation_type := operation.operation_type,
      destination_address := operation.destination_address,
      destination_chain := operation.destination_chain,
      slippage_bps := operation.slippage_bps, expires_at := operation.expires_at,
      executed := false, nonce := next - 1, created_at := env.blockTimestamp }
  let newOps := insertMap perms.allowed_operations operation_id allowed_op
  let perms1 := { perms with next_nonce := next, allowed_operations := newOps }
  let s1 := { s with permissions := insertMap s.permissions derivation_path perms1 }
  let active_key := derivation_path ++ ":" ++ operation_id
  Except.ok ({ s1 with active_operations := setInsert s1.active_operations active_key },
    operation_id)

/-- `remove_allowed_operation`: same authorization as addition, then
unconditional deletion from the allowlist and the active-operation index. -/
def remove_allowed_operation (env : HostEnv) (s : PermissionContract)
    (derivation_path operation_id : String)
    (signature message : List Nat) (signer_address : String) :
    Except String PermissionContract := do
  assert_tee_relayer env s
  let perms ← expectSome (lookupMap s.permissions derivation_path)
    "No permissions for derivation path"
  let signer_wallet ← expectSome
    (perms.owner_wallets.find? (fun w => w.chain_address == signer_address))
    "Signer not authorized for this derivation path"
  requireB (verify_user_signature env signer_wallet.wallet_type signer_wallet.public_key
    signer_address message signature) "Invalid signature"
  let newOps := removeMap perms.allowed_operations operation_id
  let perms1 := { perms with allowed_operations := newOps }
  let s1 := { s with permissions := insertMap s.permissions derivation_path perms1 }
  let active_key := derivation_path ++ ":" ++ operation_id
  Except.ok { s1 with active_operations := setRemove s1.active_operations active_key }

/-- `validate_price_condition`: the 60-second (in nanoseconds) timestamp
freshness gate, then the trigger comparison selected by the operation type. -/
def validate_price_condition (env : HostEnv) (operation : AllowedOperation)
    (current_price : Nat) (timestamp : Option Nat) : Except String Unit := do
  (match timestamp with
  | some ts =>
    let now := env.blockTimestamp
    if now > ts ∧ now - ts > 60000000000 then Except.error "Price timestamp too old"
    else Except.ok ()
  | none => Except.ok ())
  match operation.operation_type with
  | AllowedOperationType.LimitOrder _ _ trigger_price condition _ _ _ =>
    (match condition with
    | PriceCondition.Above =>
      if current_price < trigger_price then
        Except.error "Price condition not met: price below trigger"
      else Except.ok ()
    | PriceCondition.Below =>
      if current_price > trigger_price then
        Except.error "Price condition not met: price above trigger"
      else Except.ok ())
  | AllowedOperationType.StopLoss _ _ trigger_price _ _ _ =>
    if current_price > trigger_price then
      Except.error "Stop-loss condition not met: price above trigger"
    else Except.ok ()
  | AllowedOperationType.TakeProfit _ _ trigger_price _ _ _ =>
    if current_price < trigger_price then
      Except.error "Take-profit condition not met: price below trigger"
    else Except.ok ()
  | AllowedOperationType.Swap _ _ _ => Except.ok ()

/-- The expiry gate of `sign_allowed` (lines 338–343 of `lib.rs`): when an
expiry is set, the call aborts unless the block timestamp is still strictly
below it. -/
def checkExpiry (env : HostEnv) (expires_at : Option Nat) : Except String Unit :=
  match expires_at with
  | some expires => requireB (decide (env.blockTimestamp < expires)) "Operation has expired"
  | none => Except.ok ()

/-- The conditional-order gate of `sign_allowed` (lines 346–350 of `lib.rs`):
price validation runs exactly when a price was supplied. -/
def checkPrice (env : HostEnv) (operation : AllowedOperation)
    (tee_price tee_timestamp : Option Nat) : Except String Unit :=
  match tee_price with
  | some price => validate_price_condition env operation price tee_timestamp
  | none => Except.ok ()

/-- `sign_allowed`: relayer check, allowlist resolution, executed/expiry
checks, optional price-condition validation, then the optimistic commit
(`executed := true`, removal from the active index) followed by construction
of the MPC sign request.  The returned `SignRequest` is the asynchronous call
the host dispatches after persisting the successor state. -/
def sign_allowed (env : HostEnv) (s : PermissionContract)
    (derivation_path operation_id : String) (payload : List Nat) (key_type : String)
    (tee_price : Option Nat) (tee_timestamp : Option Nat) :
    Except String (PermissionContract × SignRequest) := do
  assert_tee_relayer env s
  let perms ← expectSome (lookupMap s.permissions derivation_path)
    "No permissions for derivation path"
  let operation ← expectSome (lookupMap perms.allowed_operations operation_id)
    "Operation not in allowlist"
  requireB (!operation.executed) "Operation already executed"
  checkExpiry env operation.expires_at
  checkPrice env operation tee_price tee_timestamp
  let operation1 := { operation with executed := true }
  let newOps := insertMap perms.allowed_operations operation_id operation1
  let perms1 := { perms with allowed_operations := newOps }
  let s1 := { s with permissions := insertMap s.permissions derivation_path perms1 }
  let active_key := derivation_path ++ ":" ++ operation_id
  let s2 := { s1 with active_operations := setRemove s1.active_operations active_key }
  let domain_id ←
    match key_type with
    | "Eddsa" => Except.ok 1
    | "Ecdsa" => Except.ok 0
    | _ => Except.error "Invalid key type"
  let payload_hex := hexEncode payload
  let payload_v2 : PayloadV2 :=
    if key_type == "Eddsa" then { eddsa := some payload_hex, ecdsa := none }
    else { eddsa := none, ecdsa := some payload_hex }
  Except.ok (s2, { payload_v2 := payload_v2, path := derivation_path, domain_id := domain_id })

/-- The state written by the `Err` arm of `on_mpc_sign_complete` before it
calls `env::panic_str`: clear the executed flag and re-insert the composite
key into the active-operation index. -/
def onMpcRevertWrites (s : PermissionContract)
    (derivation_path operation_id : String) : PermissionContract :=
  match lookupMap s.permissions derivation_path with
  | none => s
  | some perms =>
    match lookupMap perms.allowed_operations operation_id with
    | none => s
    | some operation =>
      let operation1 := { operation with executed := false }
      let newOps := insertMap perms.allowed_operations operation_id operation1
      let perms1 := { perms with allowed_operations := newOps }
      let s1 := { s with permissions := insertMap s.permissions derivation_path perms1 }
      let newActive := setInsert s1.active_operations (derivation_path ++ ":" ++ operation_id)
      { s1 with active_operations := newActive }

/-- `on_mpc_sign_complete` (`#[private]`: callable only by the contract
account itself).  `result` is the callback payload: `some signature` on MPC
success, `none` for a `PromiseError`.  The source's `Err` arm stores the
compensation writes (`onMpcRevertWrites`) and then calls `env::panic_str`;
the host commits a call's writes all-or-nothing, so the aborting call
persists none of them — the `Err` arm therefore evaluates to an error with
the pre-state left in place by `commit`. -/
def on_mpc_sign_complete (env : HostEnv) (s : PermissionContract)
    (derivation_path operation_id : String) (result : Option (List Nat)) :
    Except String (PermissionContract × List Nat) := do
  requireB (env.predecessor == env.currentAccount) "Method is private"
  match result with
  | some signature => Except.ok (s, signature)
  | none =>
    let _discarded := onMpcRevertWrites s derivation_path operation_id
    Except.error "MPC sign failed"

/-- `get_operation`. -/
def get_operation (s : PermissionContract)
    (derivation_path operation_id : String) : Option AllowedOperation :=
  (lookupMap s.permissions derivation_path).bind
    (fun perms => lookupMap perms.allowed_operations operation_id)

/-- `is_operation_allowed`: false when absent, executed, or past a set expiry;
true otherwise. -/
def is_operation_allowed (env : HostEnv) (s : PermissionContract)
    (derivation_path operation_id : String) : Bool :=
  match lookupMap s.permissions derivation_path with
  | none => false
  | some perms =>
    match lookupMap perms.allowed_operations operation_id with
    | none => false
    | some op =>
      if op.executed then false
      else
        match op.expires_at with
        | some expires => if env.blockTimestamp ≥ expires then false else true
        | none => true

/-- `get_path_for_wallet`. -/
def get_path_for_wallet (s : PermissionContract) (chain_address : String) :
    Option String :=
  lookupMap s.wallet_to_path chain_address

/-- `is_tee_relayer`. -/
def is_tee_relayer (s : PermissionContract) (account : String) : Bool :=
  s.tee_relayers.contains account

/-!
## Proof-support definitions
-/

/-- The successor state of a successful `sign_allowed` call, spelled out:
the resolved operation with its executed flag set is written back and the
composite key is removed from the active-operation index. -/
def signAllowedPost (s : PermissionContract) (derivation_path operation_id : String)
    (perms : UserPermissions) (operation : AllowedOperation) : PermissionContract :=
  let operation1 := { operation with executed := true }
  let newOps := insertMap perms.allowed_operations operation_id operation1
  let perms1 := { perms with allowed_operations := newOps }
  let s1 := { s with permissions := insertMap s.permissions derivation_path perms1 }
  let active_key := derivation_path ++ ":" ++ operation_id
  { s1 with active_operations := setRemove s1.active_operations active_key }

/-- The successor state of a successful `add_allowed_operation` call, spelled
out: the freshly built operation is inserted under the generated id, the
nonce advances, and the composite key joins the active-operation index. -/
def addAllowedPost (env : HostEnv) (s : PermissionContract) (derivation_path : String)
    (operation : AllowedOperationInput) (perms : UserPermissions) : PermissionContract :=
  let operation_id := derivation_path ++ "-" ++ natDecimal perms.next_nonce
  let allowed_op : AllowedOperation :=
    { operation_id := operation_id, derivation_path := derivation_path,
      operation_type := operation.operation_type,
      destination_address := operation.destination_address,
      destination_chain := operation.destination_chain,
      slippage_bps := operation.slippage_bps, expires_at := operation.expires_at,
      executed := false, nonce := perms.next_nonce, created_at := env.blockTimestamp }
  let newOps := insertMap perms.allowed_operations operation_id allowed_op
  let perms1 := { perms with next_nonce := perms.next_nonce + 1, allowed_operations := newOps }
  let s1 := { s with permissions := insertMap s.permissions derivation_path perms1 }
  let newActive := setInsert s1.active_operations (derivation_path ++ ":" ++ operation_id)
  { s1 with active_operations := newActive }

/-- The successor state of a successful `remove_allowed_operation` call. -/
def removeAllowedPost (s : PermissionContract) (derivation_path operation_id : String)
    (perms : UserPermissions) : PermissionContract :=
  let newOps := removeMap perms.allowed_operations operation_id
  let perms1 := { perms with allowed_operations := newOps }
  let s1 := { s with permissions := insertMap s.permissions derivation_path perms1 }
  let newActive := setRemove s1.active_operations (derivation_path ++ ":" ++ operation_id)
  { s1 with active_operations := newActive }

/-- The successor state of a successful `register_wallet` call: the consumed
nonce key, the (possibly extended) permission set, and the reverse index. -/
def registerWalletPost (s : PermissionContract) (derivation_path : String)
    (wallet : RegisteredWallet) (nonce_key : String) : PermissionContract :=
  let s1 := { s with used_nonces := setInsert s.used_nonces nonce_key }
  let s2 :=
    match lookupMap s1.permissions derivation_path with
    | some perms =>
      if perms.owner_wallets.any (fun w => w.chain_address == wallet.chain_address) then s1
      else
        let perms1 := { perms with owner_wallets := perms.owner_wallets ++ [wallet] }
        { s1 with permissions := insertMap s1.permissions derivation_path perms1 }
    | none =>
      let perms1 : UserPermissions :=
        { owner_wallets := [wallet], allowed_operations := [], next_nonce := 1 }
      { s1 with permissions := insertMap s1.permissions derivation_path perms1 }
  let newW2p := insertMap s2.wallet_to_path wallet.chain_address derivation_path
  { s2 with wallet_to_path := newW2p }

/-- Registered wallets of an identity key (empty when the key is unknown). -/
def walletsOf (s : PermissionContract) (derivation_path : String) : List RegisteredWallet :=
  match lookupMap s.permissions derivation_path with
  | some perms => perms.owner_wallets
  | none => []

/-- The signer lookup performed by `add_allowed_operation` and
`remove_allowed_operation`. -/
def findSignerWallet (s : PermissionContract) (derivation_path signer_address : String) :
    Option RegisteredWallet :=
  match lookupMap s.permissions derivation_path with
  | some perms => perms.owner_wallets.find? (fun w => w.chain_address == signer_address)
  | none => none

/-- Per-identity operation-id nonce of a state (0 when the key is unknown;
every created permission set starts at 1). -/
def nonceOf (s : PermissionContract) (derivation_path : String) : Nat :=
  match lookupMap s.permissions derivation_path with
  | some perms => perms.next_nonce
  | none => 0

/-- One committed state-mutating call of the contract: the transition relation
generated by the successful entrypoints (aborted calls commit nothing and are
covered by reflexivity of `Reachable`). -/
inductive Step : PermissionContract → PermissionContract → Prop where
  | ofRegisterTeeRelayer {s s' : PermissionContract} (env : HostEnv) (a : String)
      (h : register_tee_relayer env s a = Except.ok s') : Step s s'
  | ofRemoveTeeRelayer {s s' : PermissionContract} (env : HostEnv) (a : String)
      (h : remove_tee_relayer env s a = Except.ok s') : Step s s'
  | ofUpdateMpcContract {s s' : PermissionContract} (env : HostEnv) (m : String)
      (h : update_mpc_contract env s m = Except.ok s') : Step s s'
  | ofRegisterWallet {s s' : PermissionContract} (env : HostEnv) (dp : String)
      (wt : WalletType) (pk : List Nat) (ca : String) (sig msg : List Nat) (n : Nat)
      (h : register_wallet env s dp wt pk ca sig msg n = Except.ok s') : Step s s'
  | ofAddAllowedOperation {s s' : PermissionContract} (env : HostEnv) (dp : String)
      (op : AllowedOperationInput) (sig msg : List Nat) (sa oid : String)
      (h : add_allowed_operation env s dp op sig msg sa = Except.ok (s', oid)) : Step s s'
  | ofRemoveAllowedOperation {s s' : PermissionContract} (env : HostEnv) (dp oid : String)
      (sig msg : List Nat) (sa : String)
      (h : remove_allowed_operation env s dp oid sig msg sa = Except.ok s') : Step s s'
  | ofSignAllowed {s s' : PermissionContract} (env : HostEnv) (dp oid : String)
      (pl : List Nat) (kt : String) (pr ts : Option Nat) (req : SignRequest)
      (h : sign_allowed env s dp oid pl kt pr ts = Except.ok (s', req)) : Step s s'
  | ofOnMpcSignComplete {s s' : PermissionContract} (env : HostEnv) (dp oid : String)
      (res : Option (List Nat)) (sig : List Nat)
      (h : on_mpc_sign_complete env s dp oid res = Except.ok (s', sig)) : Step s s'

/-- Any (possibly empty) sequence of committed calls. -/
def Reachable : PermissionContract → PermissionContract → Prop :=
  Relation.ReflTransGen Step

/-!
## Concrete states for witnesses and counterexamples
-/

/-- Concrete host environment for witness runs: the Ed25519 oracle accepts
everything, so outcomes are decided by the contract logic alone. -/
def wEnv : HostEnv :=
  { blockTimestamp := 1000, predecessor := "tee", currentAccount := "contract",
    ed25519Verify := fun _ _ _ => true, sha256 := fun _ => List.replicate 32 0,
    keccak256 := fun _ => List.replicate 32 0, ecrecover := fun _ _ _ _ => none }

/-- Witness environment whose Ed25519 oracle rejects everything. -/
def wEnvNoSig : HostEnv :=
  { wEnv with ed25519Verify := fun _ _ _ => false }

/-- Witness environment for the private MPC callback (the contract calls
itself). -/
def wEnvCb : HostEnv :=
  { wEnv with predecessor := "contract" }

/-- Witness registered wallet (Solana scheme, 32-byte key). -/
def wWallet : RegisteredWallet :=
  { wallet_type := WalletType.Solana, public_key := List.replicate 32 0,
    chain_address := "addr" }

/-- Witness unconditional swap operation. -/
def wOpSwap : AllowedOperation :=
  { operation_id := "p-1", derivation_path := "p",
    operation_type := AllowedOperationType.Swap "USDC" "SOL" 100,
    destination_address := "dest", destination_chain := "solana", slippage_bps := 50,
    expires_at := none, executed := false, nonce := 1, created_at := 0 }

/-- Witness stop-loss operation with trigger price 50. -/
def wOpStop : AllowedOperation :=
  { operation_id := "p-2", derivation_path := "p",
    operation_type := AllowedOperationType.StopLoss "SOL" "USDC" 50 "SOL" "USDC" 10,
    destination_address := "dest", destination_chain := "solana", slippage_bps := 50,
    expires_at := none, executed := false, nonce := 2, created_at := 0 }

/-- Witness permission set: one wallet, a swap and a stop-loss, nonce 3. -/
def wPerms : UserPermissions :=
  { owner_wallets := [wWallet],
    allowed_operations := [("p-1", wOpSwap), ("p-2", wOpStop)], next_nonce := 3 }

/-- Witness contract state. -/
def wS : PermissionContract :=
  { owner := "owner", permissions := [("p", wPerms)], wallet_to_path := [("addr", "p")],
    tee_relayers := ["tee"], mpc_contract := "mpc",
    active_operations := ["p:p-1", "p:p-2"], used_nonces := ["addr:1"] }

/-- The committed state after the witness `sign_allowed` call on the swap. -/
def wS1 : PermissionContract :=
  commit wS (sign_allowed wEnv wS "p" "p-1" [1, 2] "Eddsa" none none)

/-- Executed-but-unexpired operation for the C6 counterexample: expiry 2000 is
still in the future at block time 1000, but the operation is already executed. -/
def c6Op : AllowedOperation :=
  { wOpSwap with operation_id := "p-9", executed := true, expires_at := some 2000 }

/-- Counterexample state holding only `c6Op`. -/
def c6S : PermissionContract :=
  { wS with permissions :=
      [("p", { wPerms with allowed_operations := [("p-9", c6Op)] })] }

/-!
## Lemma layer
-/

theorem lookupMap_insertMap_self {α : Type} (m : List (String × α)) (k : String) (v : α) :
    lookupMap (insertMap m k v) k = some v := by
  induction m with
  | nil => simp [insertMap, lookupMap]
  | cons hd tl ih =>
    obtain ⟨k', v'⟩ := hd
    by_cases hk : k' = k
    · simp [insertMap, lookupMap, hk]
    · simp [insertMap, lookupMap, hk, ih]

theorem lookupMap_insertMap_ne {α : Type} (m : List (String × α)) (k k' : String) (v : α)
    (h : k ≠ k') : lookupMap (insertMap m k v) k' = lookupMap m k' := by
  induction m with
  | nil => simp [insertMap, lookupMap, h]
  | cons hd tl ih =>
    obtain ⟨k0, v0⟩ := hd
    by_cases hk : k0 = k
    · subst hk
      simp [insertMap, lookupMap, h]
    · simp [insertMap, lookupMap, hk, ih]

theorem setInsert_contains_self (s : List String) (k : String) :
    (setInsert s k).contains k = true := by
  unfold setInsert
  split
  · assumption
  · simp [List.elem_iff]

theorem setRemove_contains (s : List String) (k : String) :
    (setRemove s k).contains k = false := by
  cases hc : (setRemove s k).contains k
  · rfl
  · exfalso
    rw [List.elem_iff] at hc
    simp [setRemove, List.mem_filter] at hc

theorem setInsert_contains_of (s : List String) (k k' : String) (h : s.contains k' = true) :
    (setInsert s k).contains k' = true := by
  unfold setInsert
  split
  · exact h
  · rw [List.elem_iff] at h ⊢
    exact List.mem_append_left _ h

theorem checkExpiry_ok (env : HostEnv) (ea : Option Nat) (u : Unit)
    (h : checkExpiry env ea = Except.ok u) :
    ∀ T, ea = some T → env.blockTimestamp < T := by
  intro T hT
  subst hT
  simp [checkExpiry, requireB] at h
  exact h

theorem checkExpiry_ok_of (env : HostEnv) (ea : Option Nat)
    (h : ∀ T, ea = some T → env.blockTimestamp < T) :
    checkExpiry env ea = Except.ok () := by
  cases ea with
  | none => rfl
  | some T =>
    have := h T rfl
    simp [checkExpiry, requireB, this]

theorem checkPrice_ok (env : HostEnv) (op : AllowedOperation) (pr ts : Option Nat) (u : Unit)
    (h : checkPrice env op pr ts = Except.ok u) :
    ∀ p, pr = some p → validate_price_condition env op p ts = Except.ok () := by
  intro p hp
  subst hp
  exact h

theorem checkPrice_ok_of (env : HostEnv) (op : AllowedOperation) (pr ts : Option Nat)
    (h : ∀ p, pr = some p → validate_price_condition env op p ts = Except.ok ()) :
    checkPrice env op pr ts = Except.ok () := by
  cases pr with
  | none => rfl
  | some p => exact h p rfl

theorem sign_allowed_ok_iff (env : HostEnv) (s : PermissionContract)
    (dp oid : String) (pl : List Nat) (kt : String) (pr ts : Option Nat)
    (s' : PermissionContract) (req : SignRequest) :
    sign_allowed env s dp oid pl kt pr ts = Except.ok (s', req) ↔
      env.predecessor ∈ s.tee_relayers ∧
      ∃ perms operation,
        lookupMap s.permissions dp = some perms ∧
        lookupMap perms.allowed_operations oid = some operation ∧
        operation.executed = false ∧
        (∀ T, operation.expires_at = some T → env.blockTimestamp < T) ∧
        (∀ p, pr = some p → validate_price_condition env operation p ts = Except.ok ()) ∧
        ((kt = "Eddsa" ∧
            req = { payload_v2 := { eddsa := some (hexEncode pl), ecdsa := none },
                    path := dp, domain_id := 1 }) ∨
          (kt = "Ecdsa" ∧
            req = { payload_v2 := { eddsa := none, ecdsa := some (hexEncode pl) },
                    path := dp, domain_id := 0 })) ∧
        s' = signAllowedPost s dp oid perms operation := by
  constructor
  · intro h
    by_cases hrel : env.predecessor ∈ s.tee_relayers
    case neg =>
      simp [sign_allowed, assert_tee_relayer, requireB, hrel, bind, Except.bind] at h
    case pos =>
    refine ⟨hrel, ?_⟩
    cases hperms : lookupMap s.permissions dp with
    | none =>
      simp [sign_allowed, assert_tee_relayer, requireB, expectSome, hrel, hperms,
        bind, Except.bind] at h
    | some perms =>
    cases hop : lookupMap perms.allowed_operations oid with
    | none =>
      simp [sign_allowed, assert_tee_relayer, requireB, expectSome, hrel, hperms, hop,
        bind, Except.bind] at h
    | some operation =>
    cases hexec : operation.executed with
    | true =>
      simp [sign_allowed, assert_tee_relayer, requireB, expectSome, hrel, hperms, hop,
        hexec, bind, Except.bind] at h
    | false =>
    cases hE : checkExpiry env operation.expires_at with
    | error e =>
      simp [sign_allowed, assert_tee_relayer, requireB, expectSome, hrel, hperms, hop,
        hexec, hE, bind, Except.bind] at h
    | ok u0 =>
    cases hP : checkPrice env operation pr ts with
    | error e =>
      simp [sign_allowed, assert_tee_relayer, requireB, expectSome, hrel, hperms, hop,
        hexec, hE, hP, bind, Except.bind] at h
    | ok u1 =>
    refine ⟨perms, operation, rfl, hop, hexec, checkExpiry_ok env _ u0 hE,
      checkPrice_ok env _ pr ts u1 hP, ?_⟩
    simp [sign_allowed, assert_tee_relayer, requireB, expectSome, hrel, hperms, hop,
      hexec, hE, hP, bind, Except.bind] at h
    split at h
    · simp at h
      exact ⟨Or.inl ⟨rfl, h.2.symm⟩, h.1.symm⟩
    · simp at h
      exact ⟨Or.inr ⟨rfl, h.2.symm⟩, h.1.symm⟩
    · exact Except.noConfusion h
  · rintro ⟨hrel, perms, operation, hperms, hop, hexec, hexp, hpr, hkt, hs'⟩
    subst hs'
    have hE : checkExpiry env operation.expires_at = Except.ok () :=
      checkExpiry_ok_of env _ hexp
    have hP : checkPrice env operation pr ts = Except.ok () :=
      checkPrice_ok_of env operation pr ts hpr
    rcases hkt with ⟨hk, hr⟩ | ⟨hk, hr⟩ <;> subst hk <;> subst hr <;>
      simp [sign_allowed, assert_tee_relayer, requireB, expectSome, hrel, hperms, hop,
        hexec, hE, hP, bind, Except.bind, signAllowedPost]

theorem charOfNat_toNat (a : Nat) (ha : a < 55296) : (Char.ofNat a).toNat = a := by
  have hv : a.isValidChar := by
    unfold Nat.isValidChar
    omega
  unfold Char.ofNat
  rw [dif_pos hv]
  rfl

theorem natDigitsGo_fuel (f1 : Nat) : ∀ f2 n : Nat, n < f1 → n < f2 →
    natDigitsGo f1 n = natDigitsGo f2 n := by
  induction f1 with
  | zero => omega
  | succ f ih =>
    intro f2 n h1 h2
    cases f2 with
    | zero => omega
    | succ f2 =>
      by_cases h10 : n < 10
      · simp [natDigitsGo, h10]
      · have hdiv : n / 10 < n := Nat.div_lt_self (by omega) (by omega)
        simp only [natDigitsGo, h10, if_false]
        rw [ih f2 (n / 10) (by omega) (by omega)]

theorem natDigits_lt10 (n : Nat) (h : n < 10) : natDigits n = [Char.ofNat (48 + n)] := by
  unfold natDigits natDigitsGo
  rw [if_pos h]

theorem natDigits_ge10 (n : Nat) (h : ¬ n < 10) :
    natDigits n = natDigits (n / 10) ++ [Char.ofNat (48 + n % 10)] := by
  have hdiv : n / 10 < n := Nat.div_lt_self (by omega) (by omega)
  conv_lhs => rw [natDigits]
  unfold natDigitsGo
  rw [if_neg h, natDigitsGo_fuel n (n / 10 + 1) (n / 10) (by omega) (by omega)]
  rfl

theorem natDigits_ne_nil (n : Nat) : natDigits n ≠ [] := by
  by_cases h : n < 10
  · rw [natDigits_lt10 n h]
    simp
  · rw [natDigits_ge10 n h]
    simp

theorem digitChar_inj (a b : Nat) (ha : a < 10) (hb : b < 10)
    (h : Char.ofNat (48 + a) = Char.ofNat (48 + b)) : a = b := by
  have h2 := congrArg Char.toNat h
  rw [charOfNat_toNat _ (by omega), charOfNat_toNat _ (by omega)] at h2
  omega

theorem natDigits_inj : ∀ n m : Nat, natDigits n = natDigits m → n = m := by
  intro n
  induction n using Nat.strong_induction_on with
  | _ n ih =>
    intro m h
    by_cases hn : n < 10 <;> by_cases hm : m < 10
    · rw [natDigits_lt10 n hn, natDigits_lt10 m hm] at h
      exact digitChar_inj n m hn hm (by injection h)
    · rw [natDigits_lt10 n hn, natDigits_ge10 m hm] at h
      have hl := congrArg List.length h
      simp at hl
      exact absurd hl (natDigits_ne_nil (m / 10))
    · rw [natDigits_ge10 n hn, natDigits_lt10 m hm] at h
      have hl := congrArg List.length h
      simp at hl
      exact absurd hl (natDigits_ne_nil (n / 10))
    · rw [natDigits_ge10 n hn, natDigits_ge10 m hm] at h
      have hrev := congrArg List.reverse h
      simp at hrev
      obtain ⟨hd, htl⟩ := hrev
      have hdig : n % 10 = m % 10 := digitChar_inj _ _ (Nat.mod_lt n (by omega)) (Nat.mod_lt m (by omega)) hd
      have hdiv : n / 10 = m / 10 := by
        apply ih (n / 10) (Nat.div_lt_self (by omega) (by omega))
        have := congrArg List.reverse htl
        simpa using this
      omega

theorem add_allowed_operation_ok (env : HostEnv) (s : PermissionContract)
    (dp : String) (op : AllowedOperationInput) (sig msg : List Nat) (sa : String)
    (s' : PermissionContract) (oid : String)
    (h : add_allowed_operation env s dp op sig msg sa = Except.ok (s', oid)) :
    env.predecessor ∈ s.tee_relayers ∧
    ∃ perms w,
      lookupMap s.permissions dp = some perms ∧
      perms.owner_wallets.find? (fun x => x.chain_address == sa) = some w ∧
      verify_user_signature env w.wallet_type w.public_key sa msg sig = true ∧
      perms.next_nonce + 1 < 2 ^ 64 ∧
      oid = dp ++ "-" ++ natDecimal perms.next_nonce ∧
      s' = addAllowedPost env s dp op perms := by
  by_cases hrel : env.predecessor ∈ s.tee_relayers
  case neg =>
    simp [add_allowed_operation, assert_tee_relayer, requireB, hrel, bind, Except.bind] at h
  case pos =>
  refine ⟨hrel, ?_⟩
  cases hperms : lookupMap s.permissions dp with
  | none =>
    simp [add_allowed_operation, assert_tee_relayer, requireB, expectSome, hrel, hperms,
      bind, Except.bind] at h
  | some perms =>
  cases hw : perms.owner_wallets.find? (fun x => x.chain_address == sa) with
  | none =>
    simp [add_allowed_operation, assert_tee_relayer, requireB, expectSome, hrel, hperms, hw,
      bind, Except.bind] at h
  | some w =>
  cases hv : verify_user_signature env w.wallet_type w.public_key sa msg sig with
  | false =>
    simp [add_allowed_operation, assert_tee_relayer, requireB, expectSome, hrel, hperms, hw,
      hv, bind, Except.bind] at h
  | true =>
  by_cases hn : perms.next_nonce + 1 < 18446744073709551616
  case neg =>
    simp [add_allowed_operation, assert_tee_relayer, requireB, expectSome, u64CheckedAdd1,
      hrel, hperms, hw, hv, hn, bind, Except.bind] at h
  case pos =>
  refine ⟨perms, w, rfl, hw, hv, hn, ?_⟩
  simp [add_allowed_operation, assert_tee_relayer, requireB, expectSome, u64CheckedAdd1,
    hrel, hperms, hw, hv, hn, bind, Except.bind] at h
  exact ⟨h.2.symm, h.1.symm⟩

theorem remove_allowed_operation_ok (env : HostEnv) (s : PermissionContract)
    (dp oid : String) (sig msg : List Nat) (sa : String) (s' : PermissionContract)
    (h : remove_allowed_operation env s dp oid sig msg sa = Except.ok s') :
    env.predecessor ∈ s.tee_relayers ∧
    ∃ perms w,
      lookupMap s.permissions dp = some perms ∧
      perms.owner_wallets.find? (fun x => x.chain_address == sa) = some w ∧
      verify_user_signature env w.wallet_type w.public_key sa msg sig = true ∧
      s' = removeAllowedPost s dp oid perms := by
  by_cases hrel : env.predecessor ∈ s.tee_relayers
  case neg =>
    simp [remove_allowed_operation, assert_tee_relayer, requireB, hrel, bind, Except.bind] at h
  case pos =>
  refine ⟨hrel, ?_⟩
  cases hperms : lookupMap s.permissions dp with
  | none =>
    simp [remove_allowed_operation, assert_tee_relayer, requireB, expectSome, hrel, hperms,
      bind, Except.bind] at h
  | some perms =>
  cases hw : perms.owner_wallets.find? (fun x => x.chain_address == sa) with
  | none =>
    simp [remove_allowed_operation, assert_tee_relayer, requireB, expectSome, hrel, hperms, hw,
      bind, Except.bind] at h
  | some w =>
  cases hv : verify_user_signature env w.wallet_type w.public_key sa msg sig with
  | false =>
    simp [remove_allowed_operation, assert_tee_relayer, requireB, expectSome, hrel, hperms, hw,
      hv, bind, Except.bind] at h
  | true =>
  refine ⟨perms, w, rfl, hw, hv, ?_⟩
  simp [remove_allowed_operation, assert_tee_relayer, requireB, expectSome,
    hrel, hperms, hw, hv, bind, Except.bind] at h
  exact h.symm

theorem register_wallet_ok (env : HostEnv) (s : PermissionContract)
    (dp : String) (wt : WalletType) (pk : List Nat) (ca : String)
    (sig msg : List Nat) (n : Nat) (s' : PermissionContract)
    (h : register_wallet env s dp wt pk ca sig msg n = Except.ok s') :
    env.predecessor ∈ s.tee_relayers ∧
    (ca ++ ":" ++ natDecimal n) ∉ s.used_nonces ∧
    verify_user_signature env wt pk ca msg sig = true ∧
    msg = utf8Bytes ("Register wallet for derivation path: " ++ dp ++
      " with nonce: " ++ natDecimal n) ∧
    s' = registerWalletPost s dp
      { wallet_type := wt, public_key := pk, chain_address := ca }
      (ca ++ ":" ++ natDecimal n) := by
  by_cases hrel : env.predecessor ∈ s.tee_relayers
  case neg =>
    simp [register_wallet, assert_tee_relayer, requireB, hrel, bind, Except.bind] at h
  case pos =>
  by_cases hnk : (ca ++ ":" ++ natDecimal n) ∈ s.used_nonces
  case pos =>
    simp [register_wallet, assert_tee_relayer, requireB, hrel, hnk, bind, Except.bind] at h
  case neg =>
  cases hv : verify_user_signature env wt pk ca msg sig with
  | false =>
    simp [register_wallet, assert_tee_relayer, requireB, hrel, hnk, hv, bind, Except.bind] at h
  | true =>
  by_cases hm : msg = utf8Bytes ("Register wallet for derivation path: " ++ dp ++
      " with nonce: " ++ natDecimal n)
  case neg =>
    simp [register_wallet, assert_tee_relayer, requireB, hrel, hnk, hv, hm, bind, Except.bind] at h
  case pos =>
  refine ⟨hrel, hnk, rfl, hm, ?_⟩
  have hv2 : verify_user_signature env wt pk ca (utf8Bytes
      ("Register wallet for derivation path: " ++ dp ++ " with nonce: " ++ natDecimal n))
      sig = true := by
    rw [← hm]
    exact hv
  simp [register_wallet, assert_tee_relayer, requireB, hrel, hnk, hv2, hm,
    bind, Except.bind, registerWalletPost] at h ⊢
  exact h.symm

theorem register_wallet_nonce_used (env : HostEnv) (s : PermissionContract)
    (dp : String) (wt : WalletType) (pk : List Nat) (ca : String)
    (sig msg : List Nat) (n : Nat)
    (hrel : env.predecessor ∈ s.tee_relayers)
    (hused : (ca ++ ":" ++ natDecimal n) ∈ s.used_nonces) :
    register_wallet env s dp wt pk ca sig msg n = Except.error "Nonce already used" := by
  simp [register_wallet, assert_tee_relayer, requireB, hrel, hused, bind, Except.bind]

theorem register_wallet_existing_ok (env : HostEnv) (s : PermissionContract)
    (dp : String) (wt : WalletType) (pk : List Nat) (ca : String)
    (sig msg : List Nat) (n : Nat) (perms : UserPermissions)
    (hrel : env.predecessor ∈ s.tee_relayers)
    (hfresh : (ca ++ ":" ++ natDecimal n) ∉ s.used_nonces)
    (hv : verify_user_signature env wt pk ca msg sig = true)
    (hm : msg = utf8Bytes ("Register wallet for derivation path: " ++ dp ++
      " with nonce: " ++ natDecimal n))
    (hperms : lookupMap s.permissions dp = some perms)
    (hmem : ∃ w ∈ perms.owner_wallets, w.chain_address = ca) :
    register_wallet env s dp wt pk ca sig msg n = Except.ok
      { s with used_nonces := setInsert s.used_nonces (ca ++ ":" ++ natDecimal n),
               wallet_to_path := insertMap s.wallet_to_path ca dp } := by
  have hv2 : verify_user_signature env wt pk ca (utf8Bytes
      ("Register wallet for derivation path: " ++ dp ++ " with nonce: " ++ natDecimal n))
      sig = true := by
    rw [← hm]
    exact hv
  simp [register_wallet, assert_tee_relayer, requireB, hrel, hfresh, hv2, hm, hperms, hmem,
    bind, Except.bind]

theorem register_tee_relayer_ok (env : HostEnv) (s : PermissionContract)
    (a : String) (s' : PermissionContract)
    (h : register_tee_relayer env s a = Except.ok s') :
    s' = { s with tee_relayers := setInsert s.tee_relayers a } := by
  unfold register_tee_relayer assert_owner requireB at h
  split at h
  · simp only [bind, Except.bind] at h
    cases h
    rfl
  · simp only [bind, Except.bind] at h
    exact Except.noConfusion h

theorem remove_tee_relayer_ok (env : HostEnv) (s : PermissionContract)
    (a : String) (s' : PermissionContract)
    (h : remove_tee_relayer env s a = Except.ok s') :
    s' = { s with tee_relayers := setRemove s.tee_relayers a } := by
  unfold remove_tee_relayer assert_owner requireB at h
  split at h
  · simp only [bind, Except.bind] at h
    cases h
    rfl
  · simp only [bind, Except.bind] at h
    exact Except.noConfusion h

theorem update_mpc_contract_ok (env : HostEnv) (s : PermissionContract)
    (m : String) (s' : PermissionContract)
    (h : update_mpc_contract env s m = Except.ok s') :
    s' = { s with mpc_contract := m } := by
  unfold update_mpc_contract assert_owner requireB at h
  split at h
  · simp only [bind, Except.bind] at h
    cases h
    rfl
  · simp only [bind, Except.bind] at h
    exact Except.noConfusion h

theorem on_mpc_sign_complete_ok (env : HostEnv) (s : PermissionContract)
    (dp oid : String) (res : Option (List Nat)) (s' : PermissionContract) (sig : List Nat)
    (h : on_mpc_sign_complete env s dp oid res = Except.ok (s', sig)) :
    s' = s := by
  unfold on_mpc_sign_complete requireB at h
  split at h
  · simp only [bind, Except.bind] at h
    cases res with
    | some r =>
      simp at h
      exact h.1.symm
    | none => simp at h
  · simp only [bind, Except.bind] at h
    exact Except.noConfusion h

theorem natDecimal_inj (n m : Nat) (h : natDecimal n = natDecimal m) : n = m := by
  apply natDigits_inj
  unfold natDecimal at h
  injection h

theorem operationId_inj (p : String) (n m : Nat)
    (h : p ++ "-" ++ natDecimal n = p ++ "-" ++ natDecimal m) : n = m := by
  have hd := congrArg String.data h
  rw [String.data_append, String.data_append] at hd
  have h2 := List.append_cancel_left hd
  apply natDecimal_inj
  exact String.ext h2

theorem nonceOf_signAllowedPost (s : PermissionContract) (dp oid : String)
    (perms : UserPermissions) (operation : AllowedOperation)
    (hperms : lookupMap s.permissions dp = some perms) (p : String) :
    nonceOf (signAllowedPost s dp oid perms operation) p = nonceOf s p := by
  unfold nonceOf signAllowedPost
  by_cases hdp : dp = p
  · subst hdp
    rw [lookupMap_insertMap_self, hperms]
  · rw [lookupMap_insertMap_ne _ _ _ _ hdp]

theorem nonceOf_removeAllowedPost (s : PermissionContract) (dp oid : String)
    (perms : UserPermissions)
    (hperms : lookupMap s.permissions dp = some perms) (p : String) :
    nonceOf (removeAllowedPost s dp oid perms) p = nonceOf s p := by
  unfold nonceOf removeAllowedPost
  by_cases hdp : dp = p
  · subst hdp
    rw [lookupMap_insertMap_self, hperms]
  · rw [lookupMap_insertMap_ne _ _ _ _ hdp]

theorem nonceOf_addAllowedPost (env : HostEnv) (s : PermissionContract) (dp : String)
    (op : AllowedOperationInput) (perms : UserPermissions)
    (hperms : lookupMap s.permissions dp = some perms) (p : String) :
    nonceOf (addAllowedPost env s dp op perms) p =
      if dp = p then perms.next_nonce + 1 else nonceOf s p := by
  unfold nonceOf addAllowedPost
  by_cases hdp : dp = p
  · subst hdp
    rw [lookupMap_insertMap_self]
    simp
  · rw [lookupMap_insertMap_ne _ _ _ _ hdp]
    simp [hdp]

theorem nonceOf_registerWalletPost (s : PermissionContract) (dp : String)
    (w : RegisteredWallet) (nk : String) (p : String) :
    nonceOf s p ≤ nonceOf (registerWalletPost s dp w nk) p := by
  unfold nonceOf registerWalletPost
  by_cases hdp : dp = p
  all_goals cases hperms : lookupMap s.permissions dp with
  | some perms =>
    by_cases hmem : perms.owner_wallets.any (fun x => x.chain_address == w.chain_address) = true
    · simp [hperms, hmem]
    · have hmem2 : perms.owner_wallets.any (fun x => x.chain_address == w.chain_address) = false := by
        simpa using hmem
      first
      | (subst hdp; simp [hperms, hmem2, lookupMap_insertMap_self])
      | simp [hperms, hmem2, lookupMap_insertMap_ne _ _ _ _ hdp]
  | none =>
    first
    | (subst hdp; simp [hperms, lookupMap_insertMap_self])
    | simp [hperms, lookupMap_insertMap_ne _ _ _ _ hdp]

theorem step_nonce_mono {s s' : PermissionContract} (h : Step s s') (p : String) :
    nonceOf s p ≤ nonceOf s' p := by
  cases h with
  | ofRegisterTeeRelayer env a h =>
    rw [register_tee_relayer_ok env _ a _ h]
    exact Nat.le_refl _
  | ofRemoveTeeRelayer env a h =>
    rw [remove_tee_relayer_ok env _ a _ h]
    exact Nat.le_refl _
  | ofUpdateMpcContract env m h =>
    rw [update_mpc_contract_ok env _ m _ h]
    exact Nat.le_refl _
  | ofRegisterWallet env dp wt pk ca sig msg n h =>
    obtain ⟨-, -, -, -, hpost⟩ := register_wallet_ok env _ dp wt pk ca sig msg n _ h
    rw [hpost]
    exact nonceOf_registerWalletPost _ dp _ _ p
  | ofAddAllowedOperation env dp op sig msg sa oid h =>
    obtain ⟨-, perms, w, hperms, -, -, -, -, hpost⟩ :=
      add_allowed_operation_ok env _ dp op sig msg sa _ oid h
    rw [hpost, nonceOf_addAllowedPost env _ dp op perms hperms p]
    by_cases hdp : dp = p
    · subst hdp
      simp [nonceOf, hperms]
    · simp [hdp]
  | ofRemoveAllowedOperation env dp oid sig msg sa h =>
    obtain ⟨-, perms, w, hperms, -, -, hpost⟩ :=
      remove_allowed_operation_ok env _ dp oid sig msg sa _ h
    rw [hpost, nonceOf_removeAllowedPost _ dp oid perms hperms p]
  | ofSignAllowed env dp oid pl kt pr ts req h =>
    obtain ⟨-, perms, operation, hperms, -, -, -, -, -, hpost⟩ :=
      (sign_allowed_ok_iff env _ dp oid pl kt pr ts _ req).mp h
    rw [hpost, nonceOf_signAllowedPost _ dp oid perms operation hperms p]
  | ofOnMpcSignComplete env dp oid res sig h =>
    rw [on_mpc_sign_complete_ok env _ dp oid res _ sig h]

theorem reachable_nonce_mono {s s' : PermissionContract} (h : Reachable s s') (p : String) :
    nonceOf s p ≤ nonceOf s' p := by
  induction h with
  | refl => exact Nat.le_refl _
  | tail hstep hlast ih => exact Nat.le_trans ih (step_nonce_mono hlast p)

theorem setRemove_not_mem (s : List String) (k : String) : k ∉ setRemove s k := by
  simp [setRemove, List.mem_filter]

theorem get_operation_signAllowedPost (s : PermissionContract) (dp oid : String)
    (perms : UserPermissions) (operation : AllowedOperation) :
    get_operation (signAllowedPost s dp oid perms operation) dp oid =
      some { operation with executed := true } := by
  simp [get_operation, signAllowedPost, lookupMap_insertMap_self]

theorem active_signAllowedPost (s : PermissionContract) (dp oid : String)
    (perms : UserPermissions) (operation : AllowedOperation) :
    (dp ++ ":" ++ oid) ∉ (signAllowedPost s dp oid perms operation).active_operations := by
  simp only [signAllowedPost]
  exact setRemove_not_mem _ _

theorem get_operation_addAllowedPost (env : HostEnv) (s : PermissionContract) (dp : String)
    (op : AllowedOperationInput) (perms : UserPermissions) :
    get_operation (addAllowedPost env s dp op perms) dp
      (dp ++ "-" ++ natDecimal perms.next_nonce) =
      some { operation_id := dp ++ "-" ++ natDecimal perms.next_nonce,
             derivation_path := dp, operation_type := op.operation_type,
             destination_address := op.destination_address,
             destination_chain := op.destination_chain,
             slippage_bps := op.slippage_bps, expires_at := op.expires_at,
             executed := false, nonce := perms.next_nonce,
             created_at := env.blockTimestamp } := by
  simp [get_operation, addAllowedPost, lookupMap_insertMap_self]

theorem active_addAllowedPost (env : HostEnv) (s : PermissionContract) (dp : String)
    (op : AllowedOperationInput) (perms : UserPermissions) :
    (dp ++ ":" ++ (dp ++ "-" ++ natDecimal perms.next_nonce)) ∈
      (addAllowedPost env s dp op perms).active_operations := by
  simp only [addAllowedPost]
  rw [← List.elem_iff]
  exact setInsert_contains_self _ _

theorem used_nonces_registerWalletPost (s : PermissionContract) (dp : String)
    (w : RegisteredWallet) (nk : String) :
    (registerWalletPost s dp w nk).used_nonces = setInsert s.used_nonces nk := by
  unfold registerWalletPost
  cases hp : lookupMap s.permissions dp with
  | some perms =>
    by_cases hmem : perms.owner_wallets.any (fun x => x.chain_address == w.chain_address) = true
    · simp [hp, hmem]
    · have hmem2 : perms.owner_wallets.any (fun x => x.chain_address == w.chain_address) = false := by
        simpa using hmem
      simp [hp, hmem2]
  | none => simp [hp]

theorem wallet_mem_registerWalletPost (s : PermissionContract) (dp : String)
    (w : RegisteredWallet) (nk : String) :
    ∃ perms1, lookupMap (registerWalletPost s dp w nk).permissions dp = some perms1 ∧
      ∃ x ∈ perms1.owner_wallets, x.chain_address = w.chain_address := by
  unfold registerWalletPost
  cases hp : lookupMap s.permissions dp with
  | some perms =>
    by_cases hmem : (∃ x ∈ perms.owner_wallets, x.chain_address = w.chain_address)
    · have hmem2 : perms.owner_wallets.any (fun x => x.chain_address == w.chain_address) = true := by
        simpa using hmem
      refine ⟨perms, ?_, hmem⟩
      simp [hp, hmem2]
    · have hmem2 : perms.owner_wallets.any (fun x => x.chain_address == w.chain_address) = false := by
        simpa using hmem
      refine ⟨{ perms with owner_wallets := perms.owner_wallets ++ [w] }, ?_, ?_⟩
      · simp [hp, hmem2, lookupMap_insertMap_self]
      · exact ⟨w, by simp, rfl⟩
  | none =>
    refine ⟨{ owner_wallets := [w], allowed_operations := [], next_nonce := 1 }, ?_, ?_⟩
    · simp [hp, lookupMap_insertMap_self]
    · exact ⟨w, by simp, rfl⟩

theorem validate_stale (env : HostEnv) (op : AllowedOperation) (p t : Nat)
    (h : env.blockTimestamp > t + 60000000000) :
    validate_price_condition env op p (some t) = Except.error "Price timestamp too old" := by
  have hc : env.blockTimestamp > t ∧ env.blockTimestamp - t > 60000000000 := ⟨by omega, by omega⟩
  simp [validate_price_condition, hc, bind, Except.bind]

/-!
## Claim theorems
-/

/-- C1: a successful `sign_allowed` call commits a state in which the
operation's executed flag is true and its composite key is absent from the
active-operation index — the state the host persists before dispatching the
asynchronous MPC request — so any subsequent `sign_allowed` call on the same
operation id (before a compensating failure callback) aborts without
producing a second signing request. -/
theorem C1_sign_allowed_at_most_once (env : HostEnv) (s : PermissionContract)
    (dp oid : String) (pl : List Nat) (kt : String) (pr ts : Option Nat)
    (s' : PermissionContract) (req : SignRequest)
    (h : sign_allowed env s dp oid pl kt pr ts = Except.ok (s', req)) :
    (get_operation s' dp oid).map (fun op => op.executed) = some true ∧
    (dp ++ ":" ++ oid) ∉ s'.active_operations ∧
    ∀ (env2 : HostEnv) (pl2 : List Nat) (kt2 : String) (pr2 ts2 : Option Nat),
      ∃ e, sign_allowed env2 s' dp oid pl2 kt2 pr2 ts2 = Except.error e := by
  obtain ⟨hrel, perms, operation, hperms, hop, hexec, hexp, hpr, hkt, hpost⟩ :=
    (sign_allowed_ok_iff env s dp oid pl kt pr ts s' req).mp h
  subst hpost
  refine ⟨?_, active_signAllowedPost s dp oid perms operation, ?_⟩
  · rw [get_operation_signAllowedPost]
    rfl
  · intro env2 pl2 kt2 pr2 ts2
    cases hres : sign_allowed env2 (signAllowedPost s dp oid perms operation) dp oid
        pl2 kt2 pr2 ts2 with
    | error e => exact ⟨e, rfl⟩
    | ok out =>
      exfalso
      obtain ⟨s2, req2⟩ := out
      obtain ⟨-, perms2, op2, hperms2, hop2, hexec2, -⟩ :=
        (sign_allowed_ok_iff env2 _ dp oid pl2 kt2 pr2 ts2 s2 req2).mp hres
      have hget : get_operation (signAllowedPost s dp oid perms operation) dp oid =
          some { operation with executed := true } :=
        get_operation_signAllowedPost s dp oid perms operation
      unfold get_operation at hget
      rw [hperms2] at hget
      simp only [Option.some_bind] at hget
      rw [hop2] at hget
      have hop2eq : op2 = { operation with executed := true } := by
        injection hget
      rw [hop2eq] at hexec2
      simp at hexec2

/-- C1 witness: the concrete swap operation of `wS` is signed once; the
committed state `wS1` rejects a second identical request. -/
theorem C1_witness :
    ∃ e, sign_allowed wEnv wS1 "p" "p-1" [1, 2] "Eddsa" none none = Except.error e := by
  have h : sign_allowed wEnv wS "p" "p-1" [1, 2] "Eddsa" none none =
      Except.ok (wS1, ⟨⟨some "0102", none⟩, "p", 1⟩) := by rfl
  exact (C1_sign_allowed_at_most_once wEnv wS "p" "p-1" [1, 2] "Eddsa" none none
    wS1 _ h).2.2 wEnv [1, 2] "Eddsa" none none

/-- C2: the claim says a failed MPC callback returns the operation to Active
(executed flag cleared, composite key re-inserted).  The source's `Err` arm
does write exactly that compensation (`onMpcRevertWrites`) — but then calls
`env::panic_str`, and the host discards a panicking call's writes, so the
committed state still has `executed = true` and no active-index entry: the
operation never returns to Active and a retry is impossible.  This theorem
evaluates the code at the failing input: after the witness `sign_allowed`
commit `wS1`, a failure callback aborts, commits nothing, leaves the
operation executed and outside the active index — while the discarded
write-set `onMpcRevertWrites` would have restored exactly the state the
claim (and the code's own "Revert executed flag on failure" comment)
describes. -/
theorem C2_compensation_lost :
    on_mpc_sign_complete wEnvCb wS1 "p" "p-1" none = Except.error "MPC sign failed" ∧
    commit wS1 (on_mpc_sign_complete wEnvCb wS1 "p" "p-1" none) = wS1 ∧
    (get_operation wS1 "p" "p-1").map (fun op => op.executed) = some true ∧
    ("p" ++ ":" ++ "p-1") ∉ wS1.active_operations ∧
    (∃ e, sign_allowed wEnv wS1 "p" "p-1" [1, 2] "Eddsa" none none = Except.error e) ∧
    (get_operation (onMpcRevertWrites wS1 "p" "p-1") "p" "p-1").map
      (fun op => op.executed) = some false ∧
    ("p" ++ ":" ++ "p-1") ∈ (onMpcRevertWrites wS1 "p" "p-1").active_operations := by
  refine ⟨by rfl, by rfl, by rfl, by decide, ⟨"Operation already executed", by rfl⟩,
    by rfl, by decide⟩

/-- C3: whenever the supplied signer address is not a registered wallet of the
derivation path (including an unknown path) or the supplied signature fails
verification against the registered wallet, both `add_allowed_operation` and
`remove_allowed_operation` abort, and the committed state — permission store
(wallet list, allowlist, `next_nonce`) and active-operation index — is the
unchanged pre-state. -/
theorem C3_mutations_require_authorized_signature (env : HostEnv)
    (s : PermissionContract) (dp : String) (op : AllowedOperationInput) (oid : String)
    (sig msg : List Nat) (sa : String)
    (h : ∀ w, findSignerWallet s dp sa = some w →
      verify_user_signature env w.wallet_type w.public_key sa msg sig = false) :
    (∃ e, add_allowed_operation env s dp op sig msg sa = Except.error e) ∧
    commit s (add_allowed_operation env s dp op sig msg sa) = s ∧
    (∃ e, remove_allowed_operation env s dp oid sig msg sa = Except.error e) ∧
    commitU s (remove_allowed_operation env s dp oid sig msg sa) = s := by
  have hadd : ∀ out, add_allowed_operation env s dp op sig msg sa = Except.ok out → False := by
    intro out hres
    obtain ⟨s2, oid2⟩ := out
    obtain ⟨-, perms, w, hperms, hw, hv, -⟩ :=
      add_allowed_operation_ok env s dp op sig msg sa s2 oid2 hres
    have hfind : findSignerWallet s dp sa = some w := by
      unfold findSignerWallet
      rw [hperms]
      exact hw
    rw [h w hfind] at hv
    cases hv
  have hrem : ∀ s2, remove_allowed_operation env s dp oid sig msg sa = Except.ok s2 → False := by
    intro s2 hres
    obtain ⟨-, perms, w, hperms, hw, hv, -⟩ :=
      remove_allowed_operation_ok env s dp oid sig msg sa s2 hres
    have hfind : findSignerWallet s dp sa = some w := by
      unfold findSignerWallet
      rw [hperms]
      exact hw
    rw [h w hfind] at hv
    cases hv
  cases hres1 : add_allowed_operation env s dp op sig msg sa with
  | ok out => exact (hadd out hres1).elim
  | error e1 =>
    cases hres2 : remove_allowed_operation env s dp oid sig msg sa with
    | ok s2 => exact (hrem s2 hres2).elim
    | error e2 =>
      exact ⟨⟨e1, rfl⟩, by simp [commit, hres1], ⟨e2, rfl⟩, by simp [commitU, hres2]⟩

/-- C3 witness: the address "other" is not registered for path "p" in `wS`,
so adding an operation signed by it aborts. -/
theorem C3_witness :
    ∃ e, add_allowed_operation wEnv wS "p"
      ⟨AllowedOperationType.Swap "USDC" "SOL" 5, "dest", "solana", 10, none⟩
      [] [] "other" = Except.error e := by
  have hnone : findSignerWallet wS "p" "other" = none := by decide
  exact (C3_mutations_require_authorized_signature wEnv wS "p"
    ⟨AllowedOperationType.Swap "USDC" "SOL" 5, "dest", "solana", 10, none⟩ "p-1" [] [] "other"
    (fun w hw => by rw [hnone] at hw; exact Option.noConfusion hw)).1

/-- C4: with a supplied price and a fresh (or absent) timestamp,
`validate_price_condition` passes exactly according to the variant's trigger
comparison — LimitOrder Above passes iff price ≥ trigger, Below iff
price ≤ trigger, StopLoss iff price ≤ trigger, TakeProfit iff
price ≥ trigger, Swap always — and whenever the resolved operation fails
validation, `sign_allowed` called with that price aborts and commits the
unchanged pre-state. -/
theorem C4_price_condition_evaluation :
    (∀ (env : HostEnv) (op : AllowedOperation) (p : Nat) (ts : Option Nat),
      (∀ t, ts = some t →
        ¬(env.blockTimestamp > t ∧ env.blockTimestamp - t > 60000000000)) →
      (validate_price_condition env op p ts = Except.ok () ↔
        (match op.operation_type with
         | AllowedOperationType.LimitOrder _ _ trig cond _ _ _ =>
           (match cond with
            | PriceCondition.Above => trig ≤ p
            | PriceCondition.Below => p ≤ trig)
         | AllowedOperationType.StopLoss _ _ trig _ _ _ => p ≤ trig
         | AllowedOperationType.TakeProfit _ _ trig _ _ _ => trig ≤ p
         | AllowedOperationType.Swap _ _ _ => True))) ∧
    (∀ (env : HostEnv) (s : PermissionContract) (dp oid : String) (pl : List Nat)
      (kt : String) (p : Nat) (ts : Option Nat),
      (∀ op, get_operation s dp oid = some op →
        validate_price_condition env op p ts ≠ Except.ok ()) →
      (∃ e, sign_allowed env s dp oid pl kt (some p) ts = Except.error e) ∧
      commit s (sign_allowed env s dp oid pl kt (some p) ts) = s) := by
  constructor
  · intro env op p ts hfresh
    have hgate : (match ts with
      | some t =>
        if env.blockTimestamp > t ∧ env.blockTimestamp - t > 60000000000 then
          Except.error "Price timestamp too old"
        else Except.ok ()
      | none => Except.ok ()) = Except.ok () := by
      cases ts with
      | none => rfl
      | some t => simp [hfresh t rfl]
    cases hty : op.operation_type with
    | Swap a b c =>
      simp [validate_price_condition, hty, hgate, bind, Except.bind]
    | LimitOrder a b trig cond c d e =>
      cases cond with
      | Above =>
        by_cases hc : p < trig <;>
          simp [validate_price_condition, hty, hgate, hc, bind, Except.bind] <;> omega
      | Below =>
        by_cases hc : p > trig <;>
          simp [validate_price_condition, hty, hgate, hc, bind, Except.bind] <;> omega
    | StopLoss a b trig c d e =>
      by_cases hc : p > trig <;>
        simp [validate_price_condition, hty, hgate, hc, bind, Except.bind] <;> omega
    | TakeProfit a b trig c d e =>
      by_cases hc : p < trig <;>
        simp [validate_price_condition, hty, hgate, hc, bind, Except.bind] <;> omega
  · intro env s dp oid pl kt p ts h
    cases hres : sign_allowed env s dp oid pl kt (some p) ts with
    | error e => exact ⟨⟨e, rfl⟩, by simp [commit, hres]⟩
    | ok out =>
      exfalso
      obtain ⟨s2, req2⟩ := out
      obtain ⟨-, perms, operation, hperms, hop, -, -, hpr, -⟩ :=
        (sign_allowed_ok_iff env s dp oid pl kt (some p) ts s2 req2).mp hres
      have hget : get_operation s dp oid = some operation := by
        unfold get_operation
        rw [hperms]
        simpa using hop
      exact h operation hget (hpr p rfl)

/-- C4 witness: the stop-loss with trigger 50 in `wS` validates at price 40
and aborts `sign_allowed` at price 60 with the state unchanged. -/
theorem C4_witness :
    validate_price_condition wEnv wOpStop 40 none = Except.ok () ∧
    (∃ e, sign_allowed wEnv wS "p" "p-2" [1] "Eddsa" (some 60) none = Except.error e) ∧
    commit wS (sign_allowed wEnv wS "p" "p-2" [1] "Eddsa" (some 60) none) = wS := by
  refine ⟨?_, ?_⟩
  · exact (C4_price_condition_evaluation.1 wEnv wOpStop 40 none
      (fun t ht => Option.noConfusion ht)).mpr (show (40 : Nat) ≤ 50 by omega)
  · exact C4_price_condition_evaluation.2 wEnv wS "p" "p-2" [1] "Eddsa" 60 none
      (by intro op hop hval
          have hop2 : op = wOpStop := by
            rw [show get_operation wS "p" "p-2" = some wOpStop from by decide] at hop
            injection hop with he
            exact he.symm
          subst hop2
          rw [show validate_price_condition wEnv wOpStop 60 none =
            Except.error "Stop-loss condition not met: price above trigger" from rfl] at hval
          exact Except.noConfusion hval)

/-- C5 (implicit): with `tee_price = None`, `sign_allowed` performs no
trigger-condition evaluation and no timestamp freshness check at all: for an
operation of any type — conditional variants included — the call succeeds
under exactly the non-price preconditions, commits the executed flag and the
index removal just as for an unconditional Swap, and its result does not
depend on the supplied timestamp in any way. -/
theorem C5_no_price_skips_validation (env : HostEnv) (s : PermissionContract)
    (dp oid : String) (pl : List Nat) (kt : String) (ts : Option Nat)
    (perms : UserPermissions) (operation : AllowedOperation)
    (hrel : env.predecessor ∈ s.tee_relayers)
    (hperms : lookupMap s.permissions dp = some perms)
    (hop : lookupMap perms.allowed_operations oid = some operation)
    (hexec : operation.executed = false)
    (hexp : ∀ T, operation.expires_at = some T → env.blockTimestamp < T)
    (hkt : kt = "Eddsa" ∨ kt = "Ecdsa") :
    (∃ req, sign_allowed env s dp oid pl kt none ts =
       Except.ok (signAllowedPost s dp oid perms operation, req)) ∧
    (get_operation (signAllowedPost s dp oid perms operation) dp oid).map
      (fun op => op.executed) = some true ∧
    (dp ++ ":" ++ oid) ∉ (signAllowedPost s dp oid perms operation).active_operations ∧
    (∀ ts2, sign_allowed env s dp oid pl kt none ts =
       sign_allowed env s dp oid pl kt none ts2) := by
  refine ⟨?_, by rw [get_operation_signAllowedPost]; rfl,
    active_signAllowedPost s dp oid perms operation, fun ts2 => rfl⟩
  cases hkt with
  | inl hk =>
    refine ⟨⟨⟨some (hexEncode pl), none⟩, dp, 1⟩, ?_⟩
    exact (sign_allowed_ok_iff env s dp oid pl kt none ts _ _).mpr
      ⟨hrel, perms, operation, hperms, hop, hexec, hexp,
        fun p hp => Option.noConfusion hp, Or.inl ⟨hk, rfl⟩, rfl⟩
  | inr hk =>
    refine ⟨⟨⟨none, some (hexEncode pl)⟩, dp, 0⟩, ?_⟩
    exact (sign_allowed_ok_iff env s dp oid pl kt none ts _ _).mpr
      ⟨hrel, perms, operation, hperms, hop, hexec, hexp,
        fun p hp => Option.noConfusion hp, Or.inr ⟨hk, rfl⟩, rfl⟩

/-- C5 witness: the stop-loss operation of `wS` (whose trigger would reject a
supplied price of 60) is signed successfully when no price is supplied, with
an arbitrary stale timestamp ignored. -/
theorem C5_witness :
    ∃ req, sign_allowed wEnv wS "p" "p-2" [1] "Eddsa" none (some 0) =
      Except.ok (signAllowedPost wS "p" "p-2" wPerms wOpStop, req) :=
  (C5_no_price_skips_validation wEnv wS "p" "p-2" [1] "Eddsa" (some 0) wPerms wOpStop
    (by decide) (by decide) (by decide) (by decide)
    (fun T hT => Option.noConfusion hT) (Or.inl rfl)).1

/-- C6 counterexample: `c6Op` has `expires_at = some 2000`; the check time
1000 is strictly below the expiry, yet `is_operation_allowed` returns false
because the operation is executed — refuting the claim that the result for
check times below the expiry is true independent of the executed flag. -/
theorem C6_counterexample :
    wEnv.blockTimestamp < 2000 ∧
    (get_operation c6S "p" "p-9").map (fun op => op.expires_at) = some (some 2000) ∧
    (get_operation c6S "p" "p-9").map (fun op => op.executed) = some true ∧
    is_operation_allowed wEnv c6S "p" "p-9" = false := by
  refine ⟨by decide, by decide, by decide, by decide⟩

/-- C6 (amended): for an operation present in the store with
`expires_at = some T`, `is_operation_allowed` returns true exactly when the
operation is unexecuted and the check time is strictly below T; in
particular for check times ≥ T it returns false independent of the executed
flag, while for check times < T the result additionally requires
`executed = false`. -/
theorem C6_expiry_semantics (env : HostEnv) (s : PermissionContract)
    (dp oid : String) (op : AllowedOperation) (T : Nat)
    (hop : get_operation s dp oid = some op) (hT : op.expires_at = some T) :
    is_operation_allowed env s dp oid = true ↔
      (op.executed = false ∧ env.blockTimestamp < T) := by
  unfold get_operation at hop
  cases hperms : lookupMap s.permissions dp with
  | none =>
    rw [hperms] at hop
    simp at hop
  | some perms =>
    rw [hperms] at hop
    simp only [Option.some_bind] at hop
    cases hexec : op.executed with
    | true =>
      simp [is_operation_allowed, hperms, hop, hexec]
    | false =>
      by_cases hnow : env.blockTimestamp < T
      · have hge : ¬ env.blockTimestamp ≥ T := by omega
        simp [is_operation_allowed, hperms, hop, hexec, hT, hge, hnow]
      · have hge : env.blockTimestamp ≥ T := by omega
        simp [is_operation_allowed, hperms, hop, hexec, hT, hge, hnow]

/-- C6 witness: the amended theorem applied to the concrete executed
operation of `c6S`. -/
theorem C6_witness : is_operation_allowed wEnv c6S "p" "p-9" = false := by
  have h := C6_expiry_semantics wEnv c6S "p" "p-9" c6Op 2000 (by decide) (by decide)
  have hneg : ¬ (c6Op.executed = false ∧ wEnv.blockTimestamp < 2000) := by decide
  cases hres : is_operation_allowed wEnv c6S "p" "p-9" with
  | false => rfl
  | true => exact (hneg (h.mp hres)).elim

/-- C7: after a successful `register_wallet` with a given chain address and
nonce, a repeat registration with the same address and nonce is rejected as a
replay ("Nonce already used") no matter the other arguments, while a
registration for the same path and address with a fresh nonce and a valid
signature over the canonical message succeeds and leaves the identity's
wallet set unchanged (no duplicate entry for that chain address). -/
theorem C7_registration_nonce_round_trip (env : HostEnv) (s : PermissionContract)
    (dp : String) (wt : WalletType) (pk : List Nat) (ca : String)
    (sig msg : List Nat) (n : Nat) (s1 : PermissionContract)
    (h1 : register_wallet env s dp wt pk ca sig msg n = Except.ok s1) :
    (∀ (env2 : HostEnv) (dp2 : String) (wt2 : WalletType) (pk2 sig2 msg2 : List Nat),
      env2.predecessor ∈ s1.tee_relayers →
      register_wallet env2 s1 dp2 wt2 pk2 ca sig2 msg2 n =
        Except.error "Nonce already used") ∧
    (∀ (env2 : HostEnv) (wt2 : WalletType) (pk2 sig2 msg2 : List Nat) (n2 : Nat),
      env2.predecessor ∈ s1.tee_relayers →
      (ca ++ ":" ++ natDecimal n2) ∉ s1.used_nonces →
      verify_user_signature env2 wt2 pk2 ca msg2 sig2 = true →
      msg2 = utf8Bytes ("Register wallet for derivation path: " ++ dp ++
        " with nonce: " ++ natDecimal n2) →
      ∃ s2, register_wallet env2 s1 dp wt2 pk2 ca sig2 msg2 n2 = Except.ok s2 ∧
        walletsOf s2 dp = walletsOf s1 dp) := by
  obtain ⟨hrel, hnk, hv, hm, hpost⟩ := register_wallet_ok env s dp wt pk ca sig msg n s1 h1
  subst hpost
  constructor
  · intro env2 dp2 wt2 pk2 sig2 msg2 hrel2
    apply register_wallet_nonce_used env2 _ dp2 wt2 pk2 ca sig2 msg2 n hrel2
    rw [used_nonces_registerWalletPost, ← List.elem_iff]
    exact setInsert_contains_self _ _
  · intro env2 wt2 pk2 sig2 msg2 n2 hrel2 hfresh2 hv2 hm2
    obtain ⟨perms1, hperms1, hmem1⟩ :=
      wallet_mem_registerWalletPost s dp ⟨wt, pk, ca⟩ (ca ++ ":" ++ natDecimal n)
    refine ⟨_, register_wallet_existing_ok env2 _ dp wt2 pk2 ca sig2 msg2 n2 perms1
      hrel2 hfresh2 hv2 hm2 hperms1 hmem1, ?_⟩
    unfold walletsOf
    rfl

/-- C7 witness: registering the address "bob" with nonce 7 on `wS`, then
replaying the identical registration, hits the replay rejection. -/
theorem C7_witness :
    register_wallet wEnv
      (registerWalletPost wS "p" ⟨WalletType.Solana, List.replicate 32 0, "bob"⟩
        ("bob" ++ ":" ++ natDecimal 7))
      "p" WalletType.Solana (List.replicate 32 0) "bob" (List.replicate 64 0)
      (utf8Bytes "Register wallet for derivation path: p with nonce: 7") 7 =
      Except.error "Nonce already used" := by
  have h1 : register_wallet wEnv wS "p" WalletType.Solana (List.replicate 32 0) "bob"
      (List.replicate 64 0)
      (utf8Bytes "Register wallet for derivation path: p with nonce: 7") 7 =
      Except.ok (registerWalletPost wS "p" ⟨WalletType.Solana, List.replicate 32 0, "bob"⟩
        ("bob" ++ ":" ++ natDecimal 7)) := by rfl
  exact (C7_registration_nonce_round_trip wEnv wS "p" WalletType.Solana
    (List.replicate 32 0) "bob" (List.replicate 64 0)
    (utf8Bytes "Register wallet for derivation path: p with nonce: 7") 7 _ h1).1
    wEnv "p" WalletType.Solana (List.replicate 32 0) (List.replicate 64 0)
    (utf8Bytes "Register wallet for derivation path: p with nonce: 7") (by decide)

/-- C8: with a supplied price and a supplied price timestamp, `sign_allowed`
validates the timestamp against a 60-second (60 000 000 000 ns) freshness
window of the current block time: a stale timestamp always aborts the call
with the pre-state committed unchanged, and conversely any successful call
certifies the timestamp was inside the window. -/
theorem C8_price_timestamp_freshness :
    (∀ (env : HostEnv) (s : PermissionContract) (dp oid : String) (pl : List Nat)
      (kt : String) (p t : Nat),
      env.blockTimestamp > t + 60000000000 →
      (∃ e, sign_allowed env s dp oid pl kt (some p) (some t) = Except.error e) ∧
      commit s (sign_allowed env s dp oid pl kt (some p) (some t)) = s) ∧
    (∀ (env : HostEnv) (s : PermissionContract) (dp oid : String) (pl : List Nat)
      (kt : String) (p t : Nat) (s' : PermissionContract) (req : SignRequest),
      sign_allowed env s dp oid pl kt (some p) (some t) = Except.ok (s', req) →
      env.blockTimestamp ≤ t + 60000000000) := by
  constructor
  · intro env s dp oid pl kt p t hstale
    cases hres : sign_allowed env s dp oid pl kt (some p) (some t) with
    | error e => exact ⟨⟨e, rfl⟩, by simp [commit, hres]⟩
    | ok out =>
      exfalso
      obtain ⟨s2, req2⟩ := out
      obtain ⟨-, perms, operation, -, -, -, -, hpr, -⟩ :=
        (sign_allowed_ok_iff env s dp oid pl kt (some p) (some t) s2 req2).mp hres
      have hok := hpr p rfl
      rw [validate_stale env operation p t hstale] at hok
      exact Except.noConfusion hok
  · intro env s dp oid pl kt p t s' req hres
    by_cases hstale : env.blockTimestamp > t + 60000000000
    · exfalso
      obtain ⟨-, perms, operation, -, -, -, -, hpr, -⟩ :=
        (sign_allowed_ok_iff env s dp oid pl kt (some p) (some t) s' req).mp hres
      have hok := hpr p rfl
      rw [validate_stale env operation p t hstale] at hok
      exact Except.noConfusion hok
    · omega

/-- C8 witness: at block time 1000 a timestamp of 900 is fresh, and with the
block time pushed beyond the window the same call aborts unchanged. -/
theorem C8_witness :
    (∃ e, sign_allowed { wEnv with blockTimestamp := 61000000901 } wS "p" "p-1" [1]
      "Eddsa" (some 40) (some 900) = Except.error e) ∧
    commit wS (sign_allowed { wEnv with blockTimestamp := 61000000901 } wS "p" "p-1" [1]
      "Eddsa" (some 40) (some 900)) = wS :=
  C8_price_timestamp_freshness.1 { wEnv with blockTimestamp := 61000000901 } wS
    "p" "p-1" [1] "Eddsa" 40 900 (show (61000000901 : Nat) > 900 + 60000000000 by omega)

/-- C9: a successful `add_allowed_operation` returns
"{derivation_path}-{n}" with n the identity's `next_nonce` before the call,
advances `next_nonce` by exactly one, and inserts the new operation
(unexecuted, nonce n, created at the block time) into both the allowlist and
the active-operation index; moreover across any sequence of committed
contract calls, two successful additions for the same identity never return
the same operation id. -/
theorem C9_operation_id_generation :
    (∀ (env : HostEnv) (s : PermissionContract) (dp : String)
      (op : AllowedOperationInput) (sig msg : List Nat) (sa : String)
      (s' : PermissionContract) (oid : String),
      add_allowed_operation env s dp op sig msg sa = Except.ok (s', oid) →
      ∃ perms, lookupMap s.permissions dp = some perms ∧
        oid = dp ++ "-" ++ natDecimal perms.next_nonce ∧
        nonceOf s' dp = perms.next_nonce + 1 ∧
        get_operation s' dp oid =
          some { operation_id := oid, derivation_path := dp,
                 operation_type := op.operation_type,
                 destination_address := op.destination_address,
                 destination_chain := op.destination_chain,
                 slippage_bps := op.slippage_bps, expires_at := op.expires_at,
                 executed := false, nonce := perms.next_nonce,
                 created_at := env.blockTimestamp } ∧
        (dp ++ ":" ++ oid) ∈ s'.active_operations) ∧
    (∀ (env1 env2 : HostEnv) (s1 s2 t1 t2 : PermissionContract) (dp : String)
      (op1 op2 : AllowedOperationInput) (sig1 sig2 msg1 msg2 : List Nat)
      (sa1 sa2 id1 id2 : String),
      add_allowed_operation env1 s1 dp op1 sig1 msg1 sa1 = Except.ok (t1, id1) →
      Reachable t1 s2 →
      add_allowed_operation env2 s2 dp op2 sig2 msg2 sa2 = Except.ok (t2, id2) →
      id1 ≠ id2) := by
  constructor
  · intro env s dp op sig msg sa s' oid h
    obtain ⟨-, perms, w, hperms, -, -, -, hoid, hpost⟩ :=
      add_allowed_operation_ok env s dp op sig msg sa s' oid h
    subst hpost
    subst hoid
    refine ⟨perms, hperms, rfl, ?_, ?_, ?_⟩
    · rw [nonceOf_addAllowedPost env s dp op perms hperms dp]
      simp
    · exact get_operation_addAllowedPost env s dp op perms
    · exact active_addAllowedPost env s dp op perms
  · intro env1 env2 s1 s2 t1 t2 dp op1 op2 sig1 sig2 msg1 msg2 sa1 sa2 id1 id2
      h1 hreach h2 heq
    obtain ⟨-, perms1, w1, hperms1, -, -, -, hid1, hpost1⟩ :=
      add_allowed_operation_ok env1 s1 dp op1 sig1 msg1 sa1 t1 id1 h1
    obtain ⟨-, perms2, w2, hperms2, -, -, -, hid2, -⟩ :=
      add_allowed_operation_ok env2 s2 dp op2 sig2 msg2 sa2 t2 id2 h2
    have hnt1 : nonceOf t1 dp = perms1.next_nonce + 1 := by
      rw [hpost1, nonceOf_addAllowedPost env1 s1 dp op1 perms1 hperms1 dp]
      simp
    have hns2 : nonceOf s2 dp = perms2.next_nonce := by
      unfold nonceOf
      rw [hperms2]
    have hmono := reachable_nonce_mono hreach dp
    rw [hnt1, hns2] at hmono
    rw [hid1, hid2] at heq
    have := operationId_inj dp perms1.next_nonce perms2.next_nonce heq
    omega

/-- C9 witness: two consecutive additions on `wS` return the distinct ids
"p-3" and "p-4". -/
theorem C9_witness : ("p-3" : String) ≠ "p-4" := by
  have h1 : add_allowed_operation wEnv wS "p"
      ⟨AllowedOperationType.Swap "USDC" "SOL" 7, "dest", "solana", 10, none⟩
      (List.replicate 64 0) [] "addr" =
      Except.ok (addAllowedPost wEnv wS "p"
        ⟨AllowedOperationType.Swap "USDC" "SOL" 7, "dest", "solana", 10, none⟩ wPerms,
        "p-3") := by rfl
  have h2 : add_allowed_operation wEnv
      (addAllowedPost wEnv wS "p"
        ⟨AllowedOperationType.Swap "USDC" "SOL" 7, "dest", "solana", 10, none⟩ wPerms) "p"
      ⟨AllowedOperationType.Swap "USDC" "SOL" 7, "dest", "solana", 10, none⟩
      (List.replicate 64 0) [] "addr" =
      Except.ok (commit
        (addAllowedPost wEnv wS "p"
          ⟨AllowedOperationType.Swap "USDC" "SOL" 7, "dest", "solana", 10, none⟩ wPerms)
        (add_allowed_operation wEnv
          (addAllowedPost wEnv wS "p"
            ⟨AllowedOperationType.Swap "USDC" "SOL" 7, "dest", "solana", 10, none⟩ wPerms) "p"
          ⟨AllowedOperationType.Swap "USDC" "SOL" 7, "dest", "solana", 10, none⟩
          (List.replicate 64 0) [] "addr"),
        okId (add_allowed_operation wEnv
          (addAllowedPost wEnv wS "p"
            ⟨AllowedOperationType.Swap "USDC" "SOL" 7, "dest", "solana", 10, none⟩ wPerms) "p"
          ⟨AllowedOperationType.Swap "USDC" "SOL" 7, "dest", "solana", 10, none⟩
          (List.replicate 64 0) [] "addr")) := by rfl
  exact C9_operation_id_generation.2 wEnv wEnv wS _ _ _ "p" _ _ _ _ _ _ "addr" "addr"
    "p-3" "p-4" h1 Relation.ReflTransGen.refl h2

/-- C10: the scheme verifiers are total boolean functions that fail closed on
malformed input: the NEAR and Solana verifiers return false whenever the
public key is not exactly 32 bytes or the signature not exactly 64 bytes
(for any oracle behavior), and the EVM verifier returns false whenever the
signature is not exactly 65 bytes or the supplied address string does not
decode — after optionally stripping a 0x marker — to exactly 20 bytes. -/
theorem C10_verifiers_fail_closed :
    (∀ (env : HostEnv) (pk msg sig : List Nat),
      pk.length ≠ 32 ∨ sig.length ≠ 64 →
      verify_near_signature env pk msg sig = false ∧
      verify_solana_signature env pk msg sig = false) ∧
    (∀ (env : HostEnv) (addr : String) (msg sig : List Nat),
      sig.length ≠ 65 → verify_evm_signature env addr msg sig = false) ∧
    (∀ (env : HostEnv) (addr : String) (msg sig : List Nat),
      parse_evm_address addr = none →
      verify_evm_signature env addr msg sig = false) := by
  refine ⟨?_, ?_, ?_⟩
  · intro env pk msg sig h
    have hc : sig.length ≠ 64 ∨ pk.length ≠ 32 :=
      h.elim (fun a => Or.inr a) (fun b => Or.inl b)
    constructor
    · unfold verify_near_signature verify_ed25519_signature
      rw [if_pos hc]
    · unfold verify_solana_signature verify_ed25519_signature
      rw [if_pos hc]
  · intro env addr msg sig h
    unfold verify_evm_signature
    rw [if_pos h]
  · intro env addr msg sig hparse
    unfold verify_evm_signature
    by_cases hl : sig.length ≠ 65
    · rw [if_pos hl]
    · rw [if_neg hl, hparse]

/-- C10 witness: a 31-byte key fails the Ed25519 verifiers even with an
all-accepting oracle, a 64-byte signature fails the EVM verifier, and a
non-hex address fails the EVM verifier with a 65-byte signature. -/
theorem C10_witness :
    verify_near_signature wEnv (List.replicate 31 0) [] (List.replicate 64 0) = false ∧
    verify_solana_signature wEnv (List.replicate 31 0) [] (List.replicate 64 0) = false ∧
    verify_evm_signature wEnv "0x742d35Cc6634C0532925a3b844Bc9e7595f2bD20" []
      (List.replicate 64 0) = false ∧
    verify_evm_signature wEnv "not-an-address" [] (List.replicate 65 0) = false := by
  obtain ⟨h1, h2⟩ := C10_verifiers_fail_closed.1 wEnv (List.replicate 31 0) []
    (List.replicate 64 0) (Or.inl (by decide))
  refine ⟨h1, h2, ?_, ?_⟩
  · exact C10_verifiers_fail_closed.2.1 wEnv "0x742d35Cc6634C0532925a3b844Bc9e7595f2bD20"
      [] (List.replicate 64 0) (by decide)
  · exact C10_verifiers_fail_closed.2.2 wEnv "not-an-address" [] (List.replicate 65 0)
      (by decide)
